import Mathlib

/-!
Verification of the eq-suggest-api matching engine.

Shallow embedding of `app/guess.py` (fuzzy n-gram strategy and the
`PhraseLookup` spelling model), `app/simple.py` (substring strategy) and the
error paths of `build_index`.  Python strings are modelled as Lean `String`
(a list of characters), Python float scores as exact rationals `ℚ`, Python
dicts as association lists in insertion order, and Python sets as
duplicate-free lists (`firstDedup`); set iteration order is unspecified in
Python, the embedding fixes first-occurrence order, and no theorem below
depends on that choice beyond determinism.
-/

namespace EqSuggest

/-- Lowercasing of a string, character by character, modelling `str.lower()`
on the ASCII data handled by the engine. -/
def pyLower (s : String) : String := ⟨s.data.map Char.toLower⟩

/-- Replacement of every occurrence of the single character `pat` by the
character list `rep`, modelling `str.replace(pat, rep)` for the
one-character patterns used by `SUBSTITUTES` and by `item.replace(' ', '')`. -/
def replaceChar (pat : Char) (rep : List Char) : List Char → List Char
  | [] => []
  | c :: cs => (if c = pat then rep else [c]) ++ replaceChar pat rep cs

/-- Removal of all spaces from a string, modelling `item.replace(' ', '')`. -/
def removeSpaces (s : String) : String := ⟨replaceChar ' ' [] s.data⟩

/-- Substitution table of `app/strategy.py` (`SUBSTITUTES`).  Every pattern in
the source is a single character; apostrophe, double quote and backslash are
written via their code points, and the accented letters and the right single
quotation mark U+2019 via theirs. -/
def SUBSTITUTES : List (Char × List Char) :=
  [('(', []), (')', []), (',', [' ']), (Char.ofNat 39, []), (Char.ofNat 34, []),
   ('-', [' ']), ('/', [' ']), (Char.ofNat 92, [' ']), ('_', [' ']), (':', [' ']),
   (Char.ofNat 8217, []), ('å', ['a']), ('â', ['a']), ('ç', ['c']),
   ('é', ['e']), ('è', ['e'])]

/-- Sequential application of all substitutions, modelling the
`for substitute in strategy.SUBSTITUTES: s = s.replace(...)` loop. -/
def applySubs (l : List Char) : List Char :=
  SUBSTITUTES.foldl (fun acc p => replaceChar p.1 p.2 acc) l

/-- Normalisation of a phrase: lowercase then apply the substitution table,
as done in `Guess.build_index` and `Simple.build_index`. -/
def normalize (item : String) : String := ⟨applySubs (pyLower item).data⟩

/-- Whitespace split, modelling `str.split()` with no argument: maximal
non-whitespace runs, empty pieces dropped. -/
def pyWords (s : String) : List String :=
  ((s.data.splitOnP (fun c => c.isWhitespace)).filter
    (fun w => decide (w ≠ []))).map (fun w => (⟨w⟩ : String))

/-- Duplicate removal keeping the first occurrence, used to model Python
sets and the key order of insertion-ordered dicts. -/
def firstDedupAux [DecidableEq α] (seen : List α) : List α → List α
  | [] => []
  | x :: xs =>
    if x ∈ seen then firstDedupAux seen xs else x :: firstDedupAux (x :: seen) xs

/-- Duplicate removal keeping the first occurrence of each element. -/
def firstDedup [DecidableEq α] (l : List α) : List α := firstDedupAux [] l

namespace Guess

/-- Minimum edge n-gram size, `Guess.MIN_N_GRAM_SIZE`. -/
def MIN_N_GRAM_SIZE : Nat := 3

/-- Acceptance threshold, `Guess.SCORE_THRESHOLD = 0.4`. -/
def SCORE_THRESHOLD : ℚ := 2 / 5

/-- Tokens of one data item: the whitespace split of its normalised form,
as in `Guess.build_index` (`tokens = norm_item.split()`). -/
def tokensOfItem (item : String) : List String := pyWords (normalize item)

/-- Value of `token_to_item[t]` after `Guess.build_index` on `data`: for each
item, one copy of the original item is appended per occurrence of the token
`t` among the item's normalised tokens. -/
def tokenToItem (data : List String) (t : String) : List String :=
  data.flatMap (fun item =>
    ((tokensOfItem item).filter (fun x => decide (x = t))).map (fun _ => item))

/-- Character-list truncation `t[:n]` of a token. -/
def pyTake (t : String) (n : Nat) : String := ⟨t.data.take n⟩

/-- Edge n-grams registered for one token: `t[:size]` for every `size` from
`MIN_N_GRAM_SIZE` to `len(t)`; empty for tokens shorter than the minimum. -/
def nGramsOf (t : String) : List String :=
  (List.range' MIN_N_GRAM_SIZE (t.length + 1 - MIN_N_GRAM_SIZE)).map (pyTake t)

/-- Value of `n_gram_to_tokens[g]` after `Guess.build_index` on `data`: the
set of tokens one of whose registered edge n-grams is `g`. -/
def nGramToTokens (data : List String) (g : String) : List String :=
  firstDedup (data.flatMap (fun item =>
    (tokensOfItem item).filter (fun t => decide (g ∈ nGramsOf t))))

/-- Union of the n-gram map entries of the given keys, modelling
`Guess._tokens_from_ngrams` (a set union returned as a list). -/
def tokensFromNgrams (data : List String) (qs : List String) : List String :=
  firstDedup (qs.flatMap (fun g => nGramToTokens data g))

/-- Initial score of one (token, item) pair in `Guess._ranking_initial`:
`len(token) / len(item.replace(' ', ''))`. -/
def initialScore (t item : String) : ℚ :=
  (t.length : ℚ) / ((removeSpaces item).length : ℚ)

/-- List of `(possible-match, score)` pairs built by `Guess._ranking_initial`
over the real tokens, in loop order. -/
def rankingInitial (data : List String) (realTokens : List String) :
    List (String × ℚ) :=
  realTokens.flatMap (fun t =>
    (tokenToItem data t).map (fun item => (item, initialScore t item)))

/-- Sum of the initial scores recorded for key `k`, the value accumulated in
`ranked_items[k]` by the first loop of `Guess._ranking_combined`. -/
def sumFor (k : String) (scores : List (String × ℚ)) : ℚ :=
  ((scores.filter (fun p => decide (p.1 = k))).map Prod.snd).sum

/-- Number of score entries recorded for key `k`, the value accumulated in
`item_to_occurrence[k]` by the first loop of `Guess._ranking_combined`. -/
def countFor (k : String) (scores : List (String × ℚ)) : Nat :=
  (scores.filter (fun p => decide (p.1 = k))).length

/-- Result of `Guess._ranking_combined`: a dict, in key insertion order,
mapping each item to its summed score times `occurrences / num_tokens`. -/
def rankingCombined (scores : List (String × ℚ)) (numTokens : Nat) :
    List (String × ℚ) :=
  (firstDedup (scores.map Prod.fst)).map (fun k =>
    (k, sumFor k scores * ((countFor k scores : ℚ) / (numTokens : ℚ))))

/-- Descending order by score used by `scores_list.sort(key=..., reverse=True)`. -/
def rDesc (a b : String × ℚ) : Prop := b.2 ≤ a.2

instance : DecidableRel rDesc := fun a b => inferInstanceAs (Decidable (b.2 ≤ a.2))

instance : IsTotal (String × ℚ) rDesc := ⟨fun a b => le_total b.2 a.2⟩

instance : IsTrans (String × ℚ) rDesc := ⟨fun _ _ _ h1 h2 => le_trans h2 h1⟩

/-- Stable descending sort of the score pairs; `List.insertionSort` is stable
like Python's `list.sort`. -/
def sortDesc (scores : List (String × ℚ)) : List (String × ℚ) :=
  List.insertionSort rDesc scores

/-- Pairs of the descending-sorted score list whose score is at or above the
threshold, the `possibles_in_threshold` list of `Guess._filtered_results`. -/
def possiblesInThreshold (scores : List (String × ℚ)) : List (String × ℚ) :=
  (sortDesc scores).filter (fun m => decide (SCORE_THRESHOLD ≤ m.2))

/-- Result selection of `Guess._filtered_results`: sort descending, keep the
pairs at or above the threshold; if none, slice the top `maxMatches`; if too
many, truncate; otherwise back-fill with `scores_list[len(possibles):max]`;
finally drop the scores. -/
def filteredResults (maxMatches : Nat) (scores : List (String × ℚ)) :
    List String :=
  (if possiblesInThreshold scores = [] then (sortDesc scores).take maxMatches
   else if maxMatches < (possiblesInThreshold scores).length then
     (possiblesInThreshold scores).take maxMatches
   else possiblesInThreshold scores ++
     ((sortDesc scores).drop (possiblesInThreshold scores).length).take
       (maxMatches - (possiblesInThreshold scores).length)).map Prod.fst

end Guess

namespace PhraseLookup

/-- Normalised word list of the data set, `PhraseLookup._words`: join the
phrases with spaces, lowercase, substitute, then take the maximal
`[a-z0-9]+` runs as `re.findall` does. -/
def alnumChar (c : Char) : Bool := (decide ('a' ≤ c) && decide (c ≤ 'z')) ||
  (decide ('0' ≤ c) && decide (c ≤ '9'))

/-- Word list extracted from the data set by `PhraseLookup._words`. -/
def wordsOf (data : List String) : List String :=
  (((applySubs (pyLower (String.intercalate " " data)).data).splitOnP
      (fun c => !(alnumChar c))).filter
    (fun w => decide (w ≠ []))).map (fun w => (⟨w⟩ : String))

/-- Frequency of a word in the primed model, `PhraseLookup._build_model`;
a word is known to the model exactly when its count is positive. -/
def modelCount (data : List String) (w : String) : Nat :=
  ((wordsOf data).filter (fun x => decide (x = w))).length

/-- Alphabet used for insertions in `PhraseLookup._single_edits`
(`string.ascii_lowercase + string.digits`). -/
def charset : List Char := "abcdefghijklmnopqrstuvwxyz0123456789".data

/-- Set of single edits of a word, `PhraseLookup._single_edits`: all single
character deletions plus all single character insertions from `charset`,
returned as a set (here: duplicate-free list). -/
def singleEdits (w : String) : List String :=
  let splits := (List.range (w.length + 1)).map
    (fun i => (w.data.take i, w.data.drop i))
  let deletes := splits.filterMap (fun p =>
    match p.2 with
    | [] => none
    | _ :: b => some ((⟨p.1 ++ b⟩ : String)))
  let inserts := splits.flatMap (fun p =>
    charset.map (fun c => (⟨p.1 ++ c :: p.2⟩ : String)))
  firstDedup (deletes ++ inserts)

/-- First maximal element under `f`, modelling Python's `max(xs, key=f)`
which returns the first element attaining the maximum in iteration order. -/
def pyMaxBy (f : α → Nat) (x : α) (xs : List α) : α :=
  xs.foldl (fun b y => if f b < f y then y else b) x

/-- Lookup of one word, `PhraseLookup._lookup_word`: the word itself when
known, else the highest-frequency known single edit, else the word. -/
def lookupWord (data : List String) (w : String) : String :=
  if 0 < modelCount data w then w
  else
    match (singleEdits w).filter (fun e => decide (0 < modelCount data e)) with
    | [] => w
    | e :: es => pyMaxBy (modelCount data) e es

/-- Lookup of a phrase, `PhraseLookup.lookup_phrase`: apply `lookupWord` to
every whitespace-delimited word, keeping order. -/
def lookupPhrase (data : List String) (phrase : String) : List String :=
  (pyWords phrase).map (lookupWord data)

end PhraseLookup

namespace Guess

/-- Resolved query tokens of `Guess.candidates`:
`self.lookup.lookup_phrase(query.lower())`. -/
def queryTokens (data : List String) (q : String) : List String :=
  PhraseLookup.lookupPhrase data (pyLower q)

/-- Ranked score dict computed inside `Guess.candidates` before filtering:
`self._ranking_combined(self._ranking_initial(real_tokens), len(tokens))`. -/
def rankedItems (data : List String) (q : String) : List (String × ℚ) :=
  rankingCombined
    (rankingInitial data (tokensFromNgrams data (queryTokens data q)))
    (queryTokens data q).length

/-- Full query pipeline `Guess.candidates` of an engine initialised on
`data` with the given `max_matches`. -/
def candidates (data : List String) (maxMatches : Nat) (q : String) :
    List String :=
  filteredResults maxMatches (rankedItems data q)

end Guess

/-- Python exception kinds that can escape the engines' methods.
`strategyError` models `strategy.StrategyError(msg)`; the other constructors
model builtin exceptions raised by slips in the code: `typeError` for
operations on a wrong-typed value (iterating a number, `list(None)`),
`attributeError` for `item.lower()` on a non-string, and `nameError` for the
unbound variable `e` in `Simple.build_index`'s JSON error handler. -/
inductive PyExc
  | strategyError (msg : String)
  | typeError
  | attributeError
  | nameError
deriving DecidableEq, Repr

/-- Parsed JSON value of a data-source file, restricted to the shapes the
claims exercise: strings, numbers and arrays. -/
inductive JVal
  | jstr (s : String)
  | jnum (n : Int)
  | jarr (elems : List JVal)

/-- Outcome of opening and JSON-decoding the data file: the path does not
resolve, the content is not valid JSON, or a parsed value. -/
inductive SourceRead
  | notFound
  | badJson
  | parsed (v : JVal)

/-- Iteration of `for item in data` followed by `item.lower()` on each item:
an array yields its elements if all are strings and `attributeError`
otherwise; a string silently yields its one-character substrings (Python
string iteration); a number is not iterable and raises `typeError`.  Neither
builtin exception is converted to a `strategyError` by the source. -/
def itemsOf : JVal → Except PyExc (List String)
  | .jarr xs => xs.mapM (fun v =>
      match v with
      | .jstr s => Except.ok s
      | _ => Except.error PyExc.attributeError)
  | .jstr s => Except.ok (s.data.map (fun c => (⟨[c]⟩ : String)))
  | .jnum _ => Except.error PyExc.typeError

namespace Guess

/-- Error behaviour of `Guess.build_index` up to obtaining the data list:
`FileNotFoundError` and `json.JSONDecodeError` are converted to
`StrategyError` with the source's messages; any other exception escapes. -/
def buildIndexData : SourceRead → Except PyExc (List String)
  | .notFound => Except.error (PyExc.strategyError "Failed to open data source")
  | .badJson => Except.error (PyExc.strategyError "Data source is invalid")
  | .parsed v => itemsOf v

end Guess

namespace Simple

/-- Error behaviour of `Simple.build_index` up to obtaining the data list.
The `json.decoder.JSONDecodeError` handler is `except ...:` without `as e`
yet its message interpolates `e`, so evaluating the f-string raises
`NameError` instead of the intended `StrategyError`. -/
def buildIndexData : SourceRead → Except PyExc (List String)
  | .notFound => Except.error (PyExc.strategyError "Failed to open data source")
  | .badJson => Except.error PyExc.nameError
  | .parsed v => itemsOf v

/-- Substrings registered for one normalised item by `Simple.build_index`:
`norm_item[i:string_size]` for every start `i` in `range(0, len)` and every
`string_size` in `range(3, len + 1)` (slice end positions, not lengths). -/
def gramsOf (s : String) : List String :=
  (List.range s.length).flatMap (fun i =>
    (List.range' 3 (s.length + 1 - 3)).map
      (fun size => (⟨(s.data.take size).drop i⟩ : String)))

/-- Value set of `self.index.get(g)` for the engine built on `data`: the
items one of whose registered substrings is `g` (empty list when the key is
absent; registered value sets are never empty). -/
def lookupKey (data : List String) (g : String) : List String :=
  firstDedup (data.filter (fun item => decide (g ∈ gramsOf (normalize item))))

/-- Query method `Simple.candidates`: the guard tests
`self.index.get(query.lower())` but the fetch uses `self.index.get(query)`
unlowered, so a matching query that is not already lowercase makes
`list(None)` raise `TypeError`. -/
def candidates (data : List String) (maxMatches : Nat) (q : String) :
    Except PyExc (List String) :=
  if lookupKey data (pyLower q) ≠ [] then
    match lookupKey data q with
    | [] => Except.error PyExc.typeError
    | l => Except.ok (l.take maxMatches)
  else Except.ok []

end Simple

/-- Number of distinct matched tokens for a phrase, following the words of
the spec for claim C3 ("the number of distinct matched tokens for that
phrase"): how many distinct real tokens have the phrase in their
`token_to_item` entry.  This is the spec-side quantity to compare with the
occurrence count the code actually uses. -/
def specDistinctMatched (data : List String) (real : List String)
    (phrase : String) : Nat :=
  ((firstDedup real).filter
    (fun t => decide (phrase ∈ Guess.tokenToItem data t))).length

/-- Combined score following the words of the spec for claim C3: the sum of
the phrase's initial scores multiplied by (distinct matched tokens divided
by the query word count).  To be compared with `Guess.rankingCombined`. -/
def specCombined (data : List String) (real : List String) (numWords : Nat)
    (phrase : String) : ℚ :=
  Guess.sumFor phrase (Guess.rankingInitial data real) *
    ((specDistinctMatched data real phrase : ℚ) / (numWords : ℚ))

/-! Helper lemmas about the embedding, shared by the claim theorems. -/

theorem mem_firstDedupAux [DecidableEq α] (l : List α) :
    ∀ (seen : List α) (a : α), a ∈ firstDedupAux seen l ↔ a ∈ l ∧ a ∉ seen := by
  induction l with
  | nil => intro seen a; simp [firstDedupAux]
  | cons x xs ih =>
    intro seen a
    by_cases hx : x ∈ seen
    · simp only [firstDedupAux, if_pos hx, ih, List.mem_cons]
      constructor
      · rintro ⟨h1, h2⟩
        exact ⟨Or.inr h1, h2⟩
      · rintro ⟨h1 | h1, h2⟩
        · subst h1; exact absurd hx h2
        · exact ⟨h1, h2⟩
    · simp only [firstDedupAux, if_neg hx, List.mem_cons, ih]
      constructor
      · rintro (rfl | ⟨h1, h2⟩)
        · exact ⟨Or.inl rfl, hx⟩
        · exact ⟨Or.inr h1, fun hs => h2 (Or.inr hs)⟩
      · rintro ⟨rfl | h1, h2⟩
        · exact Or.inl rfl
        · by_cases hax : a = x
          · exact Or.inl hax
          · exact Or.inr ⟨h1, fun hs => hs.elim hax h2⟩

theorem mem_firstDedup [DecidableEq α] {l : List α} {a : α} :
    a ∈ firstDedup l ↔ a ∈ l := by
  simp [firstDedup, mem_firstDedupAux]

theorem nodup_firstDedupAux [DecidableEq α] (l : List α) :
    ∀ seen : List α, (firstDedupAux seen l).Nodup := by
  induction l with
  | nil => intro seen; simp [firstDedupAux]
  | cons x xs ih =>
    intro seen
    by_cases hx : x ∈ seen
    · simpa [firstDedupAux, if_pos hx] using ih seen
    · simp only [firstDedupAux, if_neg hx]
      refine List.nodup_cons.mpr ⟨?_, ih _⟩
      intro hmem
      exact ((mem_firstDedupAux xs _ x).mp hmem).2 (List.mem_cons_self x seen)

theorem nodup_firstDedup [DecidableEq α] (l : List α) : (firstDedup l).Nodup :=
  nodup_firstDedupAux l []

theorem pyMaxBy_spec (f : α → Nat) :
    ∀ (xs : List α) (x : α), PhraseLookup.pyMaxBy f x xs ∈ x :: xs ∧
      ∀ y ∈ x :: xs, f y ≤ f (PhraseLookup.pyMaxBy f x xs) := by
  intro xs
  induction xs with
  | nil =>
    intro x
    constructor
    · exact List.mem_cons_self x []
    · intro y hy
      rcases List.mem_cons.mp hy with rfl | h
      · exact le_refl _
      · exact absurd h (List.not_mem_nil y)
  | cons z zs ih =>
    intro x
    by_cases hxz : f x < f z
    · have h0 : PhraseLookup.pyMaxBy f x (z :: zs) = PhraseLookup.pyMaxBy f z zs := by
        simp [PhraseLookup.pyMaxBy, List.foldl_cons, if_pos hxz]
      obtain ⟨hmem, hmax⟩ := ih z
      rw [h0]
      refine ⟨?_, ?_⟩
      · rcases List.mem_cons.mp hmem with h | h
        · rw [h]; exact List.mem_cons_of_mem _ (List.mem_cons_self _ _)
        · exact List.mem_cons_of_mem _ (List.mem_cons_of_mem _ h)
      · intro y hy
        rcases List.mem_cons.mp hy with rfl | hy2
        · exact le_trans (le_of_lt hxz) (hmax z (List.mem_cons_self _ _))
        · exact hmax y hy2
    · have h0 : PhraseLookup.pyMaxBy f x (z :: zs) = PhraseLookup.pyMaxBy f x zs := by
        simp [PhraseLookup.pyMaxBy, List.foldl_cons, if_neg hxz]
      obtain ⟨hmem, hmax⟩ := ih x
      rw [h0]
      refine ⟨?_, ?_⟩
      · rcases List.mem_cons.mp hmem with h | h
        · rw [h]; exact List.mem_cons_self _ _
        · exact List.mem_cons_of_mem _ (List.mem_cons_of_mem _ h)
      · intro y hy
        rcases List.mem_cons.mp hy with rfl | hy2
        · exact hmax y (List.mem_cons_self _ _)
        · rcases List.mem_cons.mp hy2 with rfl | hy3
          · exact le_trans (le_of_not_lt hxz) (hmax x (List.mem_cons_self _ _))
          · exact hmax y (List.mem_cons_of_mem _ hy3)

theorem splitOnP_all_filter [DecidableEq α] (p : α → Bool) (l : List α)
    (h : ∀ c ∈ l, p c) :
    (l.splitOnP p).filter (fun w => decide (w ≠ [])) = [] := by
  induction l with
  | nil => simp [List.splitOnP_nil]
  | cons c cs ih =>
    have hc : p c := h c (List.mem_cons_self _ _)
    rw [List.splitOnP_cons, if_pos hc]
    simpa using ih (fun x hx => h x (List.mem_cons_of_mem _ hx))

theorem pyWords_eq_nil (s : String) (h : ∀ c ∈ s.data, c.isWhitespace) :
    pyWords s = [] := by
  unfold pyWords
  rw [splitOnP_all_filter _ _ h]
  rfl

theorem toLower_of_isWhitespace {c : Char} (h : c.isWhitespace) : c.toLower = c := by
  simp only [Char.isWhitespace, Bool.or_eq_true, decide_eq_true_eq] at h
  rcases h with ((rfl | rfl) | rfl) | rfl <;> decide

theorem filter_thresh_eq_take :
    ∀ l : List (String × ℚ), l.Pairwise Guess.rDesc →
      l.filter (fun m => decide (Guess.SCORE_THRESHOLD ≤ m.2)) =
        l.take (l.filter (fun m => decide (Guess.SCORE_THRESHOLD ≤ m.2))).length := by
  intro l
  induction l with
  | nil => intro _; rfl
  | cons x xs ih =>
    intro hpw
    rw [List.pairwise_cons] at hpw
    obtain ⟨hx, hxs⟩ := hpw
    by_cases hth : Guess.SCORE_THRESHOLD ≤ x.2
    · rw [List.filter_cons_of_pos (by simpa using hth)]
      rw [List.length_cons, List.take_succ_cons]
      exact congrArg (x :: ·) (ih hxs)
    · have hfil : xs.filter (fun m => decide (Guess.SCORE_THRESHOLD ≤ m.2)) = [] := by
        refine List.filter_eq_nil_iff.mpr ?_
        intro a ha
        have : a.2 ≤ x.2 := hx a ha
        simp only [decide_eq_true_eq]
        intro hcon
        exact hth (le_trans hcon this)
      rw [List.filter_cons_of_neg (by simpa using hth), hfil]
      rfl

theorem sortDesc_pairwise (scores : List (String × ℚ)) :
    (Guess.sortDesc scores).Pairwise Guess.rDesc :=
  List.sorted_insertionSort Guess.rDesc scores

theorem sortDesc_perm (scores : List (String × ℚ)) :
    List.Perm (Guess.sortDesc scores) scores :=
  List.perm_insertionSort Guess.rDesc scores

theorem possiblesInThreshold_eq_take (scores : List (String × ℚ)) :
    Guess.possiblesInThreshold scores =
      (Guess.sortDesc scores).take (Guess.possiblesInThreshold scores).length :=
  filter_thresh_eq_take (Guess.sortDesc scores) (sortDesc_pairwise scores)

theorem filteredResults_eq (maxM : Nat) (scores : List (String × ℚ)) :
    Guess.filteredResults maxM scores =
      ((Guess.sortDesc scores).take maxM).map Prod.fst := by
  have hpos := possiblesInThreshold_eq_take scores
  unfold Guess.filteredResults
  by_cases h0 : Guess.possiblesInThreshold scores = []
  · rw [if_pos h0]
  · rw [if_neg h0]
    by_cases h1 : maxM < (Guess.possiblesInThreshold scores).length
    · rw [if_pos h1]
      refine congrArg (List.map Prod.fst) ?_
      conv_lhs => rw [hpos]
      rw [List.take_take, min_eq_left (le_of_lt h1)]
    · rw [if_neg h1]
      refine congrArg (List.map Prod.fst) ?_
      have hsum : maxM = (Guess.possiblesInThreshold scores).length +
          (maxM - (Guess.possiblesInThreshold scores).length) := by omega
      conv_rhs => rw [hsum, List.take_add]
      rw [← hpos]

theorem map_fst_rankingCombined (scores : List (String × ℚ)) (n : Nat) :
    (Guess.rankingCombined scores n).map Prod.fst =
      firstDedup (scores.map Prod.fst) := by
  unfold Guess.rankingCombined
  rw [List.map_map]
  exact List.map_id' _

theorem mem_tokenToItem {data : List String} {t x : String}
    (h : x ∈ Guess.tokenToItem data t) : x ∈ data := by
  simp only [Guess.tokenToItem, List.mem_flatMap, List.mem_map] at h
  obtain ⟨item, hitem, _, _, rfl⟩ := h
  exact hitem

theorem mem_rankingInitial {data real : List String} {p : String × ℚ}
    (h : p ∈ Guess.rankingInitial data real) :
    ∃ t ∈ real, p.1 ∈ Guess.tokenToItem data t ∧
      p.2 = Guess.initialScore t p.1 := by
  simp only [Guess.rankingInitial, List.mem_flatMap, List.mem_map] at h
  obtain ⟨t, ht, item, hitem, rfl⟩ := h
  exact ⟨t, ht, hitem, rfl⟩

/-! Claim theorems. -/

/-- Claim C1: on the breakfast data set with `max_matches = 10`, the fuzzy
query "eggs" returns "Eggs" first, "Eggs" has combined score exactly 1, and
"Bacon" is absent; in general a query word equal to a full indexed token
(the lowercased space-free phrase) contributes an initial score of exactly 1
to that phrase. -/
theorem claimC1_scenarioA_exact_match :
    (Guess.candidates ["Bacon", "Eggs", "Fried Eggs", "Scrambled Eggs"] 10 "eggs").head? =
      some "Eggs"
  ∧ ("Eggs", (1 : ℚ)) ∈ Guess.rankedItems ["Bacon", "Eggs", "Fried Eggs", "Scrambled Eggs"] "eggs"
  ∧ "Bacon" ∉ Guess.candidates ["Bacon", "Eggs", "Fried Eggs", "Scrambled Eggs"] 10 "eggs"
  ∧ ∀ t item : String, pyLower (removeSpaces item) = t → t ≠ "" →
      Guess.initialScore t item = 1 := by
  have hq : Guess.queryTokens ["Bacon", "Eggs", "Fried Eggs", "Scrambled Eggs"] "eggs" =
      ["eggs"] := by decide
  have hng : Guess.tokensFromNgrams ["Bacon", "Eggs", "Fried Eggs", "Scrambled Eggs"] ["eggs"] =
      ["eggs"] := by decide
  have htt : Guess.tokenToItem ["Bacon", "Eggs", "Fried Eggs", "Scrambled Eggs"] "eggs" =
      ["Eggs", "Fried Eggs", "Scrambled Eggs"] := by decide
  have h1 : Guess.initialScore "eggs" "Eggs" = 1 := by
    norm_num [Guess.initialScore, show ("eggs".length = 4) from rfl,
      show ((removeSpaces "Eggs").length = 4) from rfl]
  have h2 : Guess.initialScore "eggs" "Fried Eggs" = 4 / 9 := by
    norm_num [Guess.initialScore, show ("eggs".length = 4) from rfl,
      show ((removeSpaces "Fried Eggs").length = 9) from rfl]
  have h3 : Guess.initialScore "eggs" "Scrambled Eggs" = 4 / 13 := by
    norm_num [Guess.initialScore, show ("eggs".length = 4) from rfl,
      show ((removeSpaces "Scrambled Eggs").length = 13) from rfl]
  have hri : Guess.rankingInitial ["Bacon", "Eggs", "Fried Eggs", "Scrambled Eggs"] ["eggs"] =
      [("Eggs", 1), ("Fried Eggs", (4 : ℚ) / 9), ("Scrambled Eggs", (4 : ℚ) / 13)] := by
    simp [Guess.rankingInitial, htt, h1, h2, h3]
  have hrc : Guess.rankedItems ["Bacon", "Eggs", "Fried Eggs", "Scrambled Eggs"] "eggs" =
      [("Eggs", 1), ("Fried Eggs", (4 : ℚ) / 9), ("Scrambled Eggs", (4 : ℚ) / 13)] := by
    unfold Guess.rankedItems
    rw [hq, hng, hri]
    simp +decide [Guess.rankingCombined, Guess.sumFor, Guess.countFor, firstDedup,
      firstDedupAux, List.filter_cons]
  have hsort : Guess.sortDesc
      [("Eggs", (1 : ℚ)), ("Fried Eggs", (4 : ℚ) / 9), ("Scrambled Eggs", (4 : ℚ) / 13)] =
      [("Eggs", 1), ("Fried Eggs", (4 : ℚ) / 9), ("Scrambled Eggs", (4 : ℚ) / 13)] := by
    have hs1 : Guess.rDesc ("Fried Eggs", (4 : ℚ) / 9) ("Scrambled Eggs", (4 : ℚ) / 13) := by
      norm_num [Guess.rDesc]
    have hs2 : Guess.rDesc ("Eggs", (1 : ℚ)) ("Fried Eggs", (4 : ℚ) / 9) := by
      norm_num [Guess.rDesc]
    simp [Guess.sortDesc, hs1, hs2]
  have hcand : Guess.candidates ["Bacon", "Eggs", "Fried Eggs", "Scrambled Eggs"] 10 "eggs" =
      ["Eggs", "Fried Eggs", "Scrambled Eggs"] := by
    unfold Guess.candidates
    rw [filteredResults_eq, hrc, hsort]
    rfl
  refine ⟨?_, ?_, ?_, ?_⟩
  · rw [hcand]; rfl
  · rw [hrc]; exact List.mem_cons_self _ _
  · rw [hcand]; decide
  · intro t item hlow hne
    have hlen : t.length = (removeSpaces item).length := by
      rw [← hlow]
      show ((removeSpaces item).data.map Char.toLower).length = (removeSpaces item).length
      rw [List.length_map]
      rfl
    have hne2 : t.length ≠ 0 := by
      intro h0
      apply hne
      have : t.data = [] := List.length_eq_zero.mp h0
      cases t
      simp_all
    unfold Guess.initialScore
    rw [← hlen]
    rw [div_self]
    exact_mod_cast hne2

/-- Witness for claim C1: the general exact-match conjunct instantiated at
the token "eggs" and the phrase "Eggs" of Scenario A. -/
theorem claimC1_scenarioA_exact_match_witness :
    pyLower (removeSpaces "Eggs") = "eggs" ∧ ("eggs" : String) ≠ ""
  ∧ Guess.initialScore "eggs" "Eggs" = 1 :=
  ⟨by decide, by decide,
    claimC1_scenarioA_exact_match.2.2.2 "eggs" "Eggs" (by decide) (by decide)⟩

/-- Claim C2: for every score map and every `max_matches`, the selection of
`Guess._filtered_results` equals the top `max_matches` of the descending
sort (hence in particular the top `max_matches` by raw score when nothing
reaches the threshold), the selected pairs are sorted highest-score-first,
the result never exceeds `max_matches` elements; when more than
`max_matches` pairs reach the threshold the result is exactly `max_matches`
long and every selected pair is at or above the threshold; when at most
`max_matches` reach it, every phrase at or above the threshold is kept and
the rest is back-filled until `max_matches` results or exhaustion
(length `= min max_matches (number of candidates)`). -/
theorem claimC2_filtered_selection (maxM : Nat) (scores : List (String × ℚ)) :
    (Guess.filteredResults maxM scores).length ≤ maxM
  ∧ Guess.filteredResults maxM scores =
      ((Guess.sortDesc scores).take maxM).map Prod.fst
  ∧ ((Guess.sortDesc scores).take maxM).Pairwise Guess.rDesc
  ∧ (maxM < (scores.filter (fun p => decide (Guess.SCORE_THRESHOLD ≤ p.2))).length →
      (Guess.filteredResults maxM scores).length = maxM
      ∧ ∀ p ∈ (Guess.sortDesc scores).take maxM, Guess.SCORE_THRESHOLD ≤ p.2)
  ∧ ((scores.filter (fun p => decide (Guess.SCORE_THRESHOLD ≤ p.2))).length ≤ maxM →
      (∀ p ∈ scores, Guess.SCORE_THRESHOLD ≤ p.2 →
        p.1 ∈ Guess.filteredResults maxM scores)
      ∧ (Guess.filteredResults maxM scores).length = min maxM scores.length) := by
  have hmaster := filteredResults_eq maxM scores
  have hlensort : (Guess.sortDesc scores).length = scores.length :=
    (sortDesc_perm scores).length_eq
  have hcnt : (Guess.possiblesInThreshold scores).length =
      (scores.filter (fun p => decide (Guess.SCORE_THRESHOLD ≤ p.2))).length :=
    ((sortDesc_perm scores).filter _).length_eq
  have hpos := possiblesInThreshold_eq_take scores
  refine ⟨?_, hmaster, ?_, ?_, ?_⟩
  · rw [hmaster]
    simp only [List.length_map, List.length_take]
    exact Nat.min_le_left _ _
  · exact List.Pairwise.sublist (List.take_sublist _ _) (sortDesc_pairwise scores)
  · intro hm
    rw [← hcnt] at hm
    constructor
    · rw [hmaster]
      simp only [List.length_map, List.length_take, hlensort]
      have h1 : (Guess.possiblesInThreshold scores).length ≤ scores.length := by
        rw [hcnt]
        exact List.length_filter_le _ _
      omega
    · intro p hp
      have htk : (Guess.sortDesc scores).take maxM =
          (Guess.possiblesInThreshold scores).take maxM := by
        rw [hpos, List.take_take, min_eq_left (le_of_lt hm)]
      rw [htk] at hp
      have hp2 : p ∈ Guess.possiblesInThreshold scores :=
        (List.take_sublist _ _).subset hp
      have := List.mem_filter.mp hp2
      simpa using this.2
  · intro hm
    rw [← hcnt] at hm
    constructor
    · intro p hp hth
      have hp2 : p ∈ Guess.sortDesc scores := (sortDesc_perm scores).mem_iff.mpr hp
      have hp3 : p ∈ Guess.possiblesInThreshold scores :=
        List.mem_filter.mpr ⟨hp2, by simpa using hth⟩
      rw [hpos] at hp3
      have htk : (Guess.sortDesc scores).take (Guess.possiblesInThreshold scores).length =
          ((Guess.sortDesc scores).take maxM).take
            (Guess.possiblesInThreshold scores).length := by
        rw [List.take_take, min_eq_left hm]
      rw [htk] at hp3
      have hp4 : p ∈ (Guess.sortDesc scores).take maxM :=
        (List.take_sublist _ _).subset hp3
      rw [hmaster]
      exact List.mem_map_of_mem _ hp4
    · rw [hmaster]
      simp [List.length_map, List.length_take, hlensort]

/-- Witness for claim C2: the at-most-`max_matches`-in-threshold branch
instantiated at one below-threshold candidate with `max_matches = 1`. -/
theorem claimC2_filtered_selection_witness :
    (([("a", (0 : ℚ))].filter (fun p => decide (Guess.SCORE_THRESHOLD ≤ p.2))).length ≤ 1)
  ∧ ((∀ p ∈ [("a", (0 : ℚ))], Guess.SCORE_THRESHOLD ≤ p.2 →
        p.1 ∈ Guess.filteredResults 1 [("a", 0)])
      ∧ (Guess.filteredResults 1 [("a", (0 : ℚ))]).length = min 1 [("a", (0 : ℚ))].length) := by
  have hd : (decide (Guess.SCORE_THRESHOLD ≤ (0 : ℚ))) = false := by
    rw [decide_eq_false_iff_not]
    norm_num [Guess.SCORE_THRESHOLD]
  have hcnt : (([("a", (0 : ℚ))].filter
      (fun p => decide (Guess.SCORE_THRESHOLD ≤ p.2))).length ≤ 1) := by
    simp [List.filter_cons, hd]
  exact ⟨hcnt, (claimC2_filtered_selection 1 [("a", 0)]).2.2.2.2 hcnt⟩

/-- Claim C3 counterexample: on the data set `["egg egg"]` with query "egg"
the resolved tokens are `["egg"]` and the query has one word, yet the code's
combined score of "egg egg" is 2 while the claimed formula (initial-score
sum times distinct matched tokens over query words) gives 1: the code
weights by occurrence entries, not by distinct matched tokens. -/
theorem claimC3_combined_weighting_counterexample :
    Guess.queryTokens ["egg egg"] "egg" = ["egg"]
  ∧ Guess.tokensFromNgrams ["egg egg"] ["egg"] = ["egg"]
  ∧ Guess.rankedItems ["egg egg"] "egg" = [("egg egg", 2)]
  ∧ specCombined ["egg egg"] ["egg"] 1 "egg egg" = 1
  ∧ (2 : ℚ) ≠ 1 := by
  have hq : Guess.queryTokens ["egg egg"] "egg" = ["egg"] := by decide
  have hng : Guess.tokensFromNgrams ["egg egg"] ["egg"] = ["egg"] := by decide
  have htt : Guess.tokenToItem ["egg egg"] "egg" = ["egg egg", "egg egg"] := by decide
  have h1 : Guess.initialScore "egg" "egg egg" = 1 / 2 := by
    norm_num [Guess.initialScore, show ("egg".length = 3) from rfl,
      show ((removeSpaces "egg egg").length = 6) from rfl]
  have hri : Guess.rankingInitial ["egg egg"] ["egg"] =
      [("egg egg", (1 : ℚ) / 2), ("egg egg", (1 : ℚ) / 2)] := by
    simp [Guess.rankingInitial, htt, h1]
  have hrc : Guess.rankedItems ["egg egg"] "egg" = [("egg egg", 2)] := by
    unfold Guess.rankedItems
    rw [hq, hng, hri]
    simp +decide [Guess.rankingCombined, Guess.sumFor, Guess.countFor, firstDedup,
      firstDedupAux, List.filter_cons]
    norm_num
  have hspec : specCombined ["egg egg"] ["egg"] 1 "egg egg" = 1 := by
    unfold specCombined specDistinctMatched
    rw [hri]
    simp +decide [Guess.sumFor, firstDedup, firstDedupAux, List.filter_cons, htt]
    norm_num
  exact ⟨hq, hng, hrc, hspec, by norm_num⟩

/-- Claim C3 amended: every initial-score entry is `len(token)` over the
length of the phrase with spaces removed for some reachable token, and the
combined per-phrase score is the sum of that phrase's initial-score entries
multiplied by (the number of initial-score entries for that phrase, counting
one entry per occurrence of a token in the phrase, divided by the query word
count). -/
theorem claimC3_combined_weighting_amended (data real : List String)
    (scores : List (String × ℚ)) (n : Nat) (k : String) :
    (∀ p ∈ Guess.rankingInitial data real,
        ∃ t ∈ real, p.1 ∈ Guess.tokenToItem data t ∧ p.2 = Guess.initialScore t p.1)
  ∧ (k ∈ scores.map Prod.fst →
      (k, Guess.sumFor k scores * ((Guess.countFor k scores : ℚ) / (n : ℚ)))
        ∈ Guess.rankingCombined scores n) := by
  constructor
  · intro p hp
    exact mem_rankingInitial hp
  · intro hk
    unfold Guess.rankingCombined
    exact List.mem_map.mpr ⟨k, mem_firstDedup.mpr hk, rfl⟩

/-- Witness for the amended claim C3 at a one-entry score map. -/
theorem claimC3_combined_weighting_amended_witness :
    "Eggs" ∈ ([("Eggs", (1 : ℚ))].map Prod.fst)
  ∧ ("Eggs", Guess.sumFor "Eggs" [("Eggs", (1 : ℚ))] *
        ((Guess.countFor "Eggs" [("Eggs", (1 : ℚ))] : ℚ) / ((1 : Nat) : ℚ)))
      ∈ Guess.rankingCombined [("Eggs", (1 : ℚ))] 1 :=
  ⟨by decide, (claimC3_combined_weighting_amended [] [] [("Eggs", 1)] 1 "Eggs").2 (by decide)⟩

/-- Claim C4: `lookup_word` returns a known word unchanged; otherwise it
intersects the single-edit set (deletions and lowercase-alphanumeric
insertions) with the vocabulary and returns a highest-frequency member when
the intersection is non-empty and the word unchanged when it is empty;
`lookup_phrase` maps the lookup over the whitespace-delimited words in
order. -/
theorem claimC4_lookup_word_spec (data : List String) (w phrase : String) :
    (0 < PhraseLookup.modelCount data w → PhraseLookup.lookupWord data w = w)
  ∧ (PhraseLookup.modelCount data w = 0 →
      (∀ e ∈ PhraseLookup.singleEdits w, PhraseLookup.modelCount data e = 0) →
      PhraseLookup.lookupWord data w = w)
  ∧ (PhraseLookup.modelCount data w = 0 →
      ∀ e ∈ PhraseLookup.singleEdits w, 0 < PhraseLookup.modelCount data e →
        PhraseLookup.lookupWord data w ∈ PhraseLookup.singleEdits w
        ∧ 0 < PhraseLookup.modelCount data (PhraseLookup.lookupWord data w)
        ∧ ∀ x ∈ PhraseLookup.singleEdits w,
            PhraseLookup.modelCount data x ≤
              PhraseLookup.modelCount data (PhraseLookup.lookupWord data w))
  ∧ PhraseLookup.lookupPhrase data phrase =
      (pyWords phrase).map (PhraseLookup.lookupWord data) := by
  refine ⟨?_, ?_, ?_, rfl⟩
  · intro h
    unfold PhraseLookup.lookupWord
    rw [if_pos h]
  · intro h0 hall
    unfold PhraseLookup.lookupWord
    rw [if_neg (by omega)]
    have hfil : (PhraseLookup.singleEdits w).filter
        (fun e => decide (0 < PhraseLookup.modelCount data e)) = [] := by
      refine List.filter_eq_nil_iff.mpr ?_
      intro a ha
      simp [hall a ha]
    rw [hfil]
  · intro h0 e he hpos
    rcases hfil : (PhraseLookup.singleEdits w).filter
        (fun x => decide (0 < PhraseLookup.modelCount data x)) with _ | ⟨x, xs⟩
    · exfalso
      have hmem : e ∈ (PhraseLookup.singleEdits w).filter
          (fun x => decide (0 < PhraseLookup.modelCount data x)) :=
        List.mem_filter.mpr ⟨he, by simpa using hpos⟩
      rw [hfil] at hmem
      exact List.not_mem_nil e hmem
    · have heval : PhraseLookup.lookupWord data w =
          PhraseLookup.pyMaxBy (PhraseLookup.modelCount data) x xs := by
        unfold PhraseLookup.lookupWord
        rw [if_neg (by omega), hfil]
      obtain ⟨hmem, hmax⟩ := pyMaxBy_spec (PhraseLookup.modelCount data) xs x
      have hsub : ∀ y ∈ x :: xs, y ∈ PhraseLookup.singleEdits w ∧
          0 < PhraseLookup.modelCount data y := by
        intro y hy
        have hy2 : y ∈ (PhraseLookup.singleEdits w).filter
            (fun x => decide (0 < PhraseLookup.modelCount data x)) := by
          rw [hfil]; exact hy
        have := List.mem_filter.mp hy2
        exact ⟨this.1, by simpa using this.2⟩
      rw [heval]
      refine ⟨(hsub _ hmem).1, (hsub _ hmem).2, ?_⟩
      intro y hy
      by_cases hc : 0 < PhraseLookup.modelCount data y
      · have hy2 : y ∈ x :: xs := by
          rw [← hfil]
          exact List.mem_filter.mpr ⟨hy, by simpa using hc⟩
        exact hmax y hy2
      · have h0y : PhraseLookup.modelCount data y = 0 := by omega
        rw [h0y]
        exact Nat.zero_le _

/-- Witness for claim C4: the known-word branch on the model primed with
"Bacon". -/
theorem claimC4_lookup_word_spec_witness :
    0 < PhraseLookup.modelCount ["Bacon"] "bacon"
  ∧ PhraseLookup.lookupWord ["Bacon"] "bacon" = "bacon" :=
  ⟨by decide, (claimC4_lookup_word_spec ["Bacon"] "bacon" "x").1 (by decide)⟩

/-- Claim C5 (code bug): with the model primed on `["Bacon"]`, the code's
`lookup_word("bacin")` returns "bacin" unchanged, although "bacon" is known
to the model, because "bacon" is two single edits away (one deletion plus
one insertion) and the code only generates single edits; the repo's tests
and the `_lookup_word` docstring expect the double-edit fallback that would
return "bacon". -/
theorem claimC5_bacin_code_bug :
    PhraseLookup.lookupWord ["Bacon"] "bacin" = "bacin"
  ∧ 0 < PhraseLookup.modelCount ["Bacon"] "bacon"
  ∧ "bacon" ∉ PhraseLookup.singleEdits "bacin" := by
  refine ⟨by decide, by decide, by decide⟩

/-- Claim C6 counterexample: the token "go" of the data set `["go"]` is
shorter than `MIN_N_GRAM_SIZE`, so the n-gram registration loop
`range(3, len(token) + 1)` is empty and the token never becomes a key of
the n-gram map, contradicting the claimed invariant for every token. -/
theorem claimC6_full_length_ngram_counterexample :
    "go" ∈ Guess.tokensOfItem "go" ∧ Guess.nGramToTokens ["go"] "go" = [] := by
  decide

/-- Claim C6 amended: every token of length at least `MIN_N_GRAM_SIZE`
extracted from a phrase of the data set is registered under its own
full-length n-gram, so the key equal to the token maps to a set containing
the token. -/
theorem claimC6_full_length_ngram_amended (data : List String) (item t : String)
    (hitem : item ∈ data) (ht : t ∈ Guess.tokensOfItem item)
    (hlen : Guess.MIN_N_GRAM_SIZE ≤ t.length) :
    t ∈ Guess.nGramToTokens data t := by
  unfold Guess.nGramToTokens
  rw [mem_firstDedup, List.mem_flatMap]
  refine ⟨item, hitem, ?_⟩
  rw [List.mem_filter]
  refine ⟨ht, ?_⟩
  simp only [decide_eq_true_eq]
  unfold Guess.nGramsOf
  rw [List.mem_map]
  refine ⟨t.length, ?_, ?_⟩
  · rw [List.mem_range'_1]
    simp only [Guess.MIN_N_GRAM_SIZE] at hlen ⊢
    omega
  · unfold Guess.pyTake
    show (⟨t.data.take t.data.length⟩ : String) = t
    rw [List.take_length]

/-- Witness for the amended claim C6 at the token "eggs" of the phrase
"Eggs". -/
theorem claimC6_full_length_ngram_amended_witness :
    "Eggs" ∈ ["Eggs"] ∧ "eggs" ∈ Guess.tokensOfItem "Eggs"
  ∧ Guess.MIN_N_GRAM_SIZE ≤ ("eggs" : String).length
  ∧ "eggs" ∈ Guess.nGramToTokens ["Eggs"] "eggs" :=
  ⟨by decide, by decide, by decide,
    claimC6_full_length_ngram_amended ["Eggs"] "Eggs" "eggs"
      (by decide) (by decide) (by decide)⟩

/-- Claim C7 (code bug): the substring engine's lowercase queries behave as
specified (Scenario D), but the fetch after the guard uses the unlowered
query, so the case-insensitive lookup promised by the spec crashes with
`TypeError` (`list(None)`) on a matching query that is not already
lowercase, such as "Bac" on the data set `["Bacon"]`. -/
theorem claimC7_simple_candidates_code_bug :
    Simple.candidates ["Bacon"] 10 "Bac" = Except.error PyExc.typeError
  ∧ Simple.candidates ["Bacon"] 10 "bac" = Except.ok ["Bacon"]
  ∧ Simple.candidates ["Bacon"] 10 "xyz" = Except.ok [] :=
  ⟨rfl, rfl, rfl⟩

/-- Claim C8 (code bug): missing files and invalid JSON raise
`StrategyError` in `Guess.build_index`, but `Simple.build_index`'s invalid
JSON handler references the unbound name `e` and raises `NameError`, and in
both engines a JSON value that is not a list of strings escapes as a builtin
exception (`TypeError` for a number) instead of a `StrategyError`. -/
theorem claimC8_build_index_errors_code_bug :
    Simple.buildIndexData SourceRead.badJson = Except.error PyExc.nameError
  ∧ Guess.buildIndexData SourceRead.badJson =
      Except.error (PyExc.strategyError "Data source is invalid")
  ∧ Guess.buildIndexData SourceRead.notFound =
      Except.error (PyExc.strategyError "Failed to open data source")
  ∧ Simple.buildIndexData SourceRead.notFound =
      Except.error (PyExc.strategyError "Failed to open data source")
  ∧ Guess.buildIndexData (SourceRead.parsed (JVal.jnum 3)) =
      Except.error PyExc.typeError
  ∧ Simple.buildIndexData (SourceRead.parsed (JVal.jnum 3)) =
      Except.error PyExc.typeError :=
  ⟨rfl, rfl, rfl, rfl, rfl, rfl⟩

/-- Claim C9: an empty or all-whitespace query yields an empty token list,
so the whole fuzzy pipeline returns the empty list and the occurrence
weighting loop runs over an empty map (no division by the zero query word
count is ever evaluated). -/
theorem claimC9_whitespace_query_empty (data : List String) (maxM : Nat)
    (q : String) (h : ∀ c ∈ q.data, c.isWhitespace) :
    Guess.candidates data maxM q = [] := by
  have hql : ∀ c ∈ (pyLower q).data, c.isWhitespace := by
    intro c hc
    have hc2 : c ∈ q.data.map Char.toLower := hc
    obtain ⟨c0, hc0, rfl⟩ := List.mem_map.mp hc2
    rw [toLower_of_isWhitespace (h c0 hc0)]
    exact h c0 hc0
  have htok : Guess.queryTokens data q = [] := by
    unfold Guess.queryTokens PhraseLookup.lookupPhrase
    rw [pyWords_eq_nil _ hql]
    rfl
  unfold Guess.candidates Guess.rankedItems
  rw [htok]
  simp [Guess.tokensFromNgrams, Guess.rankingInitial, Guess.rankingCombined,
    firstDedup, firstDedupAux, Guess.filteredResults, Guess.possiblesInThreshold,
    Guess.sortDesc, List.take_nil]

/-- Witness for claim C9 at a one-space query. -/
theorem claimC9_whitespace_query_empty_witness :
    (∀ c ∈ (" " : String).data, c.isWhitespace)
  ∧ Guess.candidates ["Bacon"] 10 " " = [] :=
  ⟨by decide, claimC9_whitespace_query_empty ["Bacon"] 10 " " (by decide)⟩

/-- Claim C10: for every data set, `max_matches` and query, the candidates
list of the fuzzy engine contains no phrase twice and every returned phrase
belongs to the data set. -/
theorem claimC10_result_nodup_subset (data : List String) (maxM : Nat)
    (q : String) :
    (Guess.candidates data maxM q).Nodup ∧
      ∀ x ∈ Guess.candidates data maxM q, x ∈ data := by
  have hcand : Guess.candidates data maxM q =
      ((Guess.sortDesc (Guess.rankedItems data q)).take maxM).map Prod.fst :=
    filteredResults_eq maxM _
  have hkeys : (Guess.rankedItems data q).map Prod.fst =
      firstDedup ((Guess.rankingInitial data (Guess.tokensFromNgrams data
        (Guess.queryTokens data q))).map Prod.fst) := map_fst_rankingCombined _ _
  constructor
  · have h1 : ((Guess.sortDesc (Guess.rankedItems data q)).map Prod.fst).Nodup := by
      refine ((sortDesc_perm _).map Prod.fst).nodup_iff.mpr ?_
      rw [hkeys]
      exact nodup_firstDedup _
    rw [hcand, List.map_take]
    exact List.Nodup.sublist (List.take_sublist _ _) h1
  · intro x hx
    rw [hcand] at hx
    obtain ⟨p, hp, rfl⟩ := List.mem_map.mp hx
    have hp2 : p ∈ Guess.sortDesc (Guess.rankedItems data q) :=
      (List.take_sublist _ _).subset hp
    have hp3 : p ∈ Guess.rankedItems data q := (sortDesc_perm _).mem_iff.mp hp2
    have hp4 : p.1 ∈ (Guess.rankedItems data q).map Prod.fst :=
      List.mem_map_of_mem _ hp3
    rw [hkeys] at hp4
    obtain ⟨p0, hp0, hfst⟩ := List.mem_map.mp (mem_firstDedup.mp hp4)
    obtain ⟨t, _, hmem, _⟩ := mem_rankingInitial hp0
    rw [← hfst]
    exact mem_tokenToItem hmem

/-- Witness for claim C10 at the breakfast-style instance. -/
theorem claimC10_result_nodup_subset_witness :
    (Guess.candidates ["Bacon"] 10 "bacon").Nodup ∧
      ∀ x ∈ Guess.candidates ["Bacon"] 10 "bacon", x ∈ ["Bacon"] :=
  claimC10_result_nodup_subset ["Bacon"] 10 "bacon"

end EqSuggest
